import Mathlib

/-!
Formal model of the docspec layout engine.

The Go sources model a paginated box layout: a tree of `LayoutNode`s whose
widths and heights are deferred values (`Future`) resolved by pure rule
functions (percentage-of-parent, fill-remaining-space, intrinsic-size-of-
children), a recursive position resolver, and a paginator that sequences
top-level nodes onto fixed-size pages.

Modelling conventions, fixed once for the whole file:
* Go `float64` sizes are modelled as exact rationals (`ℚ`).  All layout
  arithmetic in the source is plain +, -, *, /; the model idealises IEEE
  rounding away, and where the source folds a list left-to-right the model
  may fold right-to-left (equal over `ℚ` because + and max are associative
  and commutative).
* Go pointer identity is modelled by an explicit address field (`addr`);
  a fresh allocation is modelled by drawing a fresh address from a counter.
* The `Parent`/`Page` back-pointers of a node are not stored in the tree;
  they are reconstructed by an evaluation context (`Ctx`), a zipper that
  records whether the node under evaluation has a parent node (with its
  fields, its child list and the node's index in it) or sits directly on a
  page, mirroring exactly what the rule functions read through the
  pointers.  Go's pointer inequality `siblingNode != node` becomes an
  index inequality.  Rule evaluation never reads the `x`/`y` fields, so a
  context built from a not-yet-positioned copy of a node evaluates
  identically to the live Go object.
* Rule evaluation in Go can diverge (the sources' own TODO notes the
  stack overflow on cyclic definitions), so every evaluation function
  takes a fuel argument and returns `none` when the fuel runs out (or
  where Go would panic on a failed interface cast / nil function call);
  `some r` is the result Go actually returns.
* Go's `(value, error)` returns become `Except Err Size`; the distinct
  error constructions in the sources become distinct `Err` constructors.
-/

/-- Size is the fundamental unit of measurement (Go `type Size = float64`),
modelled as an exact rational. -/
abbrev Size := ℚ

/-- The empty value for a Size (Go `emptySize`). -/
def emptySize : Size := 0

/-- Rect represents a rectangle in unknown space (layout_node.go). -/
structure Rect where
  width : Size
  height : Size
deriving Repr, DecidableEq

/-- SizesQuad represents values for each of the four sides of a rectangle
(layout_node.go). -/
structure SizesQuad where
  left : Size
  right : Size
  top : Size
  bottom : Size
deriving Repr, DecidableEq

/-- NewSingletonSizeQuad gives each side the same value (layout_node.go). -/
def NewSingletonSizeQuad (value : Size) : SizesQuad :=
  ⟨value, value, value, value⟩

/-- NewSizeQuad builds a quad from top, right, bottom, left (layout_node.go). -/
def NewSizeQuad (top right bottom left : Size) : SizesQuad :=
  { left := left, right := right, top := top, bottom := bottom }

/-- FlowVertical: children flow top to bottom (layout_node.go, value 0 of the
Go int-typed enum; the type is kept as ℕ because Go admits other values and
the resolver has a defensive branch for them). -/
def FlowVertical : ℕ := 0

/-- FlowHorizontal: children flow left to right (layout_node.go, value 1). -/
def FlowHorizontal : ℕ := 1

/-- Start alignment (Go `Start`, value 0 of the int-typed enum). -/
def alignStart : ℕ := 0

/-- End alignment (Go `End`, value 1). -/
def alignEnd : ℕ := 1

/-- Center alignment (Go `Center`, value 2). -/
def alignCenter : ℕ := 2

/-- LayoutChildAlignment configures where children are positioned on each
axis (layout_node.go). -/
structure LayoutChildAlignment where
  vertical : ℕ
  horizontal : ℕ
deriving Repr, DecidableEq

/-- Leaf content of a node (Go `VisualNode interface{}`, a closed variant
over TextNode and ImageNode).  The only property of a TextNode the sizing
core reads is the renderer capability `GetInherentTextRect`; that external
capability is modelled as the inherent rect stored with the text node. -/
inductive VisualNode where
  | textNode (inherentRect : Rect)
  | imageNode
deriving Repr, DecidableEq

/-- Errors produced by the layout core (errors.go and the `fmt.Errorf` /
`errors.New` sites).  Go errors are strings; the model keeps one
constructor per construction site so that claims can name them. -/
inductive Err where
  | invariantViolation (msg : String)
  | goError (msg : String)
  | nodeTooTall (nodeHeight pageHeight : Size)
  | unhandledFlow (direction : ℕ)
deriving Repr, DecidableEq

/-- Message of the orphan-node error on the width axis (futures source,
`widthPercentage`/`widthFill`). -/
def orphanWidthMsg : String := "orphan node: parent is nil or has width of 0"

/-- Message of the orphan-node error on the height axis (futures source,
`heightPercentage`/`heightFill`). -/
def orphanHeightMsg : String := "orphan node: parent is nil or has height of 0"

/-- Message of the unbound-future error (futures source, `Future.await`);
the Go message is longer prose with the same meaning. -/
def nilNodeFutureMsg : String := "future node is nil"

/-- Message of the no-inherent-height error (futures source,
`heightAsChildren`). -/
def leafNoInherentHeightMsg : String :=
  "requested height as children, but reached a leaf node with no inherent height"

/-- Message of the no-inherent-width error (futures source,
`widthAsChildren`; the Go message says "height" there too). -/
def leafNoInherentWidthMsg : String :=
  "requested width as children, but reached a leaf node with no inherent height"

/-- futureIncomplete state tag (futures source, value 0). -/
def futureIncomplete : ℕ := 0

/-- futureComplete state tag (futures source, value 1). -/
def futureComplete : ℕ := 1

/-- The closed set of rule functions stored in a Future's `definition`
field (futures source: `identityFutureDefinition`, `widthPercentage`,
`heightPercentage`, `widthFill`, `heightFill`, `widthAsChildren`,
`heightAsChildren`).  Go stores a function pointer; the model stores the
tag and dispatches in `evalDefinition`. -/
inductive FutureDef where
  | identity
  | widthPercentage
  | heightPercentage
  | widthFill
  | heightFill
  | widthAsChildren
  | heightAsChildren
deriving Repr, DecidableEq

/-- Future is a deferred size value (futures source).  `params` models the
Go `interface{}` parameter, which in the sources is either a Size or nil;
`node` models the owning-node back-pointer as an optional address. -/
structure Future where
  value : Size
  state : ℕ
  definition : Option FutureDef
  params : Option Size
  node : Option ℕ
deriving Repr, DecidableEq

/-- newIncompleteFuture (futures source): pending future with a rule and
params, not yet bound to a node. -/
def newIncompleteFuture (def_ : FutureDef) (params : Option Size) : Future :=
  { value := emptySize, state := futureIncomplete, definition := some def_,
    params := params, node := none }

/-- newCompleteFuture (futures source): already-resolved future carrying
the identity rule. -/
def newCompleteFuture (value : Size) : Future :=
  { value := value, state := futureComplete, definition := some .identity,
    params := some value, node := none }

/-- isKnown (futures source): whether the future's value is already known. -/
def Future.isKnown (f : Future) : Bool :=
  f.state = futureComplete

/-- StaticSize exported constructor (futures source). -/
def StaticSize (size : Size) : Future := newCompleteFuture size

/-- WidthPercentage exported constructor (futures source). -/
def WidthPercentage (percentage : Size) : Future :=
  newIncompleteFuture .widthPercentage (some percentage)

/-- HeightPercentage exported constructor (futures source). -/
def HeightPercentage (percentage : Size) : Future :=
  newIncompleteFuture .heightPercentage (some percentage)

/-- WidthFill exported constructor (futures source). -/
def WidthFill : Future := newIncompleteFuture .widthFill none

/-- HeightFill exported constructor (futures source). -/
def HeightFill : Future := newIncompleteFuture .heightFill none

/-- WidthAsChildren exported constructor (futures source). -/
def WidthAsChildren : Future := newIncompleteFuture .widthAsChildren none

/-- HeightAsChildren exported constructor (futures source). -/
def HeightAsChildren : Future := newIncompleteFuture .heightAsChildren none

/-- bindTo models the node constructors assigning the owning node to each
future (layout_node.go, `newNode.Width.node = newNode` in `Div`, `Text`,
`Image`). -/
def Future.bindTo (f : Future) (addr : ℕ) : Future := { f with node := some addr }

/-- The per-node fields of Go's `LayoutNode` struct (layout_node.go), minus
the child list (split off so the tree is an inductive) and minus the
rendering-only fields Border, BorderColor, ShowFill and FillColor, which no
sizing, positioning or pagination code reads.  `addr` models the node's
allocation address (pointer identity). -/
structure LayoutNodeData where
  addr : ℕ
  visualNode : Option VisualNode
  x : Size
  y : Size
  width : Future
  height : Future
  padding : SizesQuad
  margin : SizesQuad
  childAlignment : LayoutChildAlignment
  childFlowDirection : ℕ
deriving Repr, DecidableEq

mutual
/-- A layout node: its fields and its exclusively-owned child list
(layout_node.go `LayoutNode`). -/
inductive LayoutNode where
  | mk (data : LayoutNodeData) (children : NodeList)
deriving DecidableEq

/-- An owned list of layout nodes (Go `[]*LayoutNode`). -/
inductive NodeList where
  | nil
  | cons (head : LayoutNode) (tail : NodeList)
deriving DecidableEq
end

/-- Field part of a node. -/
def LayoutNode.data : LayoutNode → LayoutNodeData
  | .mk fs _ => fs

/-- Child list of a node. -/
def LayoutNode.children : LayoutNode → NodeList
  | .mk _ cs => cs

/-- Length of a node list. -/
def NodeList.length : NodeList → ℕ
  | .nil => 0
  | .cons _ tl => tl.length + 1

/-- First element of a node list, if any. -/
def NodeList.headOpt : NodeList → Option LayoutNode
  | .nil => none
  | .cons hd _ => some hd

/-- Append a single node at the end of a node list (Go `append`). -/
def NodeList.snoc : NodeList → LayoutNode → NodeList
  | .nil, n => .cons n .nil
  | .cons hd tl, n => .cons hd (tl.snoc n)

/-- Overwrite the X and Y fields of a node (the two in-place writes the
resolver performs). -/
def setXY (n : LayoutNode) (x y : Size) : LayoutNode :=
  .mk { n.data with x := x, y := y } n.children

/-- Page is a statically-sized container of top-level nodes (docspec.go). -/
structure Page where
  width : Size
  height : Size
  margin : SizesQuad
  children : NodeList
deriving DecidableEq

/-- Page.getDrawRect (docspec.go): the area inside the page into which
child nodes can render. -/
def Page.getDrawRect (p : Page) : Rect :=
  ⟨p.width - p.margin.left - p.margin.right,
   p.height - p.margin.top - p.margin.bottom⟩

/-- Page.addNode (docspec.go): append a top-level node to the page (the
Go side effect `node.Page = p` is modelled by evaluating the node under a
page context). -/
def Page.addNode (p : Page) (n : LayoutNode) : Page :=
  { p with children := p.children.snoc n }

/-- addPage (docspec.go `Document.addPage`): a new empty page cloned from
the previous (last) page's width, height and margin. -/
def addPageFrom (previousPage : Page) : Page :=
  { width := previousPage.width, height := previousPage.height,
    margin := previousPage.margin, children := .nil }

/-- Evaluation context of a node: the reconstruction of its `Parent` and
`Page` back-pointers.  `orphanCtx`: both nil.  `pageCtx p i`: no parent,
node is child `i` of page `p`.  `parentCtx pf sibs i up`: the parent is
the node `⟨pf, sibs⟩` (of which the current node is child `i`), itself
evaluated under `up`. -/
inductive Ctx where
  | orphanCtx
  | pageCtx (page : Page) (idx : ℕ)
  | parentCtx (pf : LayoutNodeData) (siblings : NodeList) (idx : ℕ) (up : Ctx)
deriving DecidableEq

/-- The context of the sibling at index `j` of the same parent or page. -/
def Ctx.withIdx : Ctx → ℕ → Ctx
  | .orphanCtx, _ => .orphanCtx
  | .pageCtx p _, j => .pageCtx p j
  | .parentCtx pf sibs _ up, j => .parentCtx pf sibs j up

/-- Sequencing of Go's `v, err := f(); if err != nil { return err }` idiom
over the fueled result type. -/
def andThen {α β : Type} (x : Option (Except Err α))
    (f : α → Option (Except Err β)) : Option (Except Err β) :=
  match x with
  | none => none
  | some (.error e) => some (.error e)
  | some (.ok a) => f a

/-- Shared tail of `widthPercentage` (futures source): the zero-width
orphan check, the `params.(Size)` cast and the multiplication.  A nil
params (impossible through the exported constructors) would make Go panic
on the cast: modelled as `none`. -/
def widthPercentageResult (parentDrawRect : Rect) (params : Option Size) :
    Option (Except Err Size) :=
  if parentDrawRect.width = 0 then
    some (.error (.invariantViolation orphanWidthMsg))
  else
    match params with
    | none => none
    | some percentage => some (.ok (parentDrawRect.width * (percentage / 100)))

/-- Shared tail of `heightPercentage` (futures source). -/
def heightPercentageResult (parentDrawRect : Rect) (params : Option Size) :
    Option (Except Err Size) :=
  if parentDrawRect.height = 0 then
    some (.error (.invariantViolation orphanHeightMsg))
  else
    match params with
    | none => none
    | some percentage => some (.ok (parentDrawRect.height * (percentage / 100)))

/-- The condition of the leaf special case of `heightAsChildren` /
`widthAsChildren` (futures source): exactly one child and that child has a
VisualNode; when it holds, yields that child's VisualNode. -/
def leafVisual : NodeList → Option VisualNode
  | .cons c .nil => c.data.visualNode
  | _ => none

mutual

/-- Future.await (futures source): nil-owner check, completed-value check,
otherwise invoke the rule definition with the owning node and the stored
params.  The result is not written back into the future. -/
def Future.await : ℕ → Future → LayoutNode → Ctx → Option (Except Err Size)
  | 0, _, _, _ => none
  | fuel + 1, f, node, ctx =>
    match f.node with
    | none => some (.error (.invariantViolation nilNodeFutureMsg))
    | some _ =>
      if f.state = futureComplete then
        some (.ok f.value)
      else
        evalDefinition fuel f.definition f.params node ctx

/-- Dispatch of `f.definition(f.node, f.params)` (futures source).  A nil
definition would make Go crash on a nil function call: modelled as
`none`. -/
def evalDefinition : ℕ → Option FutureDef → Option Size → LayoutNode → Ctx →
    Option (Except Err Size)
  | 0, _, _, _, _ => none
  | _ + 1, none, _, _, _ => none
  | _ + 1, some .identity, params, _, _ =>
    match params with
    | some v => some (.ok v)
    | none => none
  | fuel + 1, some .widthPercentage, params, node, ctx =>
    widthPercentage fuel node ctx params
  | fuel + 1, some .heightPercentage, params, node, ctx =>
    heightPercentage fuel node ctx params
  | fuel + 1, some .widthFill, _, node, ctx => widthFill fuel node ctx
  | fuel + 1, some .heightFill, _, node, ctx => heightFill fuel node ctx
  | fuel + 1, some .widthAsChildren, _, node, ctx => widthAsChildren fuel node ctx
  | fuel + 1, some .heightAsChildren, _, node, ctx => heightAsChildren fuel node ctx

/-- widthPercentage (futures source): resolve the parent (or page) draw
rect — a missing parent and page leaves the zero rect — then apply the
shared tail. -/
def widthPercentage : ℕ → LayoutNode → Ctx → Option Size → Option (Except Err Size)
  | 0, _, _, _ => none
  | fuel + 1, _, ctx, params =>
    match ctx with
    | .orphanCtx => widthPercentageResult ⟨0, 0⟩ params
    | .pageCtx p _ => widthPercentageResult p.getDrawRect params
    | .parentCtx pf sibs _ up =>
      andThen (getDrawRect fuel (.mk pf sibs) up) fun r =>
        widthPercentageResult r params

/-- heightPercentage (futures source). -/
def heightPercentage : ℕ → LayoutNode → Ctx → Option Size → Option (Except Err Size)
  | 0, _, _, _ => none
  | fuel + 1, _, ctx, params =>
    match ctx with
    | .orphanCtx => heightPercentageResult ⟨0, 0⟩ params
    | .pageCtx p _ => heightPercentageResult p.getDrawRect params
    | .parentCtx pf sibs _ up =>
      andThen (getDrawRect fuel (.mk pf sibs) up) fun r =>
        heightPercentageResult r params

/-- widthFill (futures source): parent branch takes the parent's draw
width, siblings and flow direction; page branch takes the page's draw
width, the page's children and FlowVertical; with neither, the width stays
`emptySize` and the orphan check fires.  A zero parent width is the orphan
error; FlowVertical degenerates to `widthPercentage 100`; otherwise the
result is the parent width minus all other siblings' bounding widths minus
the node's own horizontal margin.  In the page branch the flow is always
FlowVertical, so that branch always degenerates. -/
def widthFill : ℕ → LayoutNode → Ctx → Option (Except Err Size)
  | 0, _, _ => none
  | fuel + 1, node, ctx =>
    match ctx with
    | .orphanCtx => some (.error (.invariantViolation orphanWidthMsg))
    | .pageCtx p i =>
      if p.getDrawRect.width = 0 then
        some (.error (.invariantViolation orphanWidthMsg))
      else
        widthPercentage fuel node (.pageCtx p i) (some 100)
    | .parentCtx pf sibs i up =>
      andThen (getDrawRect fuel (.mk pf sibs) up) fun r =>
        if r.width = 0 then
          some (.error (.invariantViolation orphanWidthMsg))
        else if pf.childFlowDirection = FlowVertical then
          widthPercentage fuel node (.parentCtx pf sibs i up) (some 100)
        else
          andThen (sumSiblingBoundingWidths fuel sibs 0 i (.parentCtx pf sibs i up))
            fun siblingWidths =>
              some (.ok (r.width - siblingWidths -
                (node.data.margin.left + node.data.margin.right)))

/-- heightFill (futures source); FlowHorizontal degenerates to
`heightPercentage 100`, and the page branch (flow always FlowVertical)
therefore always subtracts siblings. -/
def heightFill : ℕ → LayoutNode → Ctx → Option (Except Err Size)
  | 0, _, _ => none
  | fuel + 1, node, ctx =>
    match ctx with
    | .orphanCtx => some (.error (.invariantViolation orphanHeightMsg))
    | .pageCtx p i =>
      if p.getDrawRect.height = 0 then
        some (.error (.invariantViolation orphanHeightMsg))
      else
        andThen (sumSiblingBoundingHeights fuel p.children 0 i (.pageCtx p i))
          fun siblingHeights =>
            some (.ok (p.getDrawRect.height - siblingHeights -
              (node.data.margin.top + node.data.margin.bottom)))
    | .parentCtx pf sibs i up =>
      andThen (getDrawRect fuel (.mk pf sibs) up) fun r =>
        if r.height = 0 then
          some (.error (.invariantViolation orphanHeightMsg))
        else if pf.childFlowDirection = FlowHorizontal then
          heightPercentage fuel node (.parentCtx pf sibs i up) (some 100)
        else
          andThen (sumSiblingBoundingHeights fuel sibs 0 i (.parentCtx pf sibs i up))
            fun siblingHeights =>
              some (.ok (r.height - siblingHeights -
                (node.data.margin.top + node.data.margin.bottom)))

/-- widthAsChildren (futures source, intrinsic sizing): the single-visual-
leaf special case reads the content's inherent width; otherwise
FlowVertical takes the widest child's bounding width and any other flow
sums the children's bounding widths, plus the node's own horizontal
padding in every case. -/
def widthAsChildren : ℕ → LayoutNode → Ctx → Option (Except Err Size)
  | 0, _, _ => none
  | fuel + 1, node, ctx =>
    match node with
    | .mk fs cs =>
      match leafVisual cs with
      | some (.textNode inherentRect) =>
        some (.ok (inherentRect.width + fs.padding.left + fs.padding.right))
      | some .imageNode => some (.error (.goError leafNoInherentWidthMsg))
      | none =>
        if fs.childFlowDirection = FlowVertical then
          andThen (maxChildBoundingWidths fuel cs 0 (.parentCtx fs cs 0 ctx))
            fun widest => some (.ok (widest + fs.padding.left + fs.padding.right))
        else
          andThen (sumChildBoundingWidths fuel cs 0 (.parentCtx fs cs 0 ctx))
            fun total => some (.ok (total + fs.padding.left + fs.padding.right))

/-- heightAsChildren (futures source, intrinsic sizing): FlowHorizontal
takes the tallest child's bounding height, any other flow sums them, plus
the node's own vertical padding. -/
def heightAsChildren : ℕ → LayoutNode → Ctx → Option (Except Err Size)
  | 0, _, _ => none
  | fuel + 1, node, ctx =>
    match node with
    | .mk fs cs =>
      match leafVisual cs with
      | some (.textNode inherentRect) =>
        some (.ok (inherentRect.height + fs.padding.top + fs.padding.bottom))
      | some .imageNode => some (.error (.goError leafNoInherentHeightMsg))
      | none =>
        if fs.childFlowDirection = FlowHorizontal then
          andThen (maxChildBoundingHeights fuel cs 0 (.parentCtx fs cs 0 ctx))
            fun tallest => some (.ok (tallest + fs.padding.top + fs.padding.bottom))
        else
          andThen (sumChildBoundingHeights fuel cs 0 (.parentCtx fs cs 0 ctx))
            fun total => some (.ok (total + fs.padding.top + fs.padding.bottom))

/-- getDrawRect (layout_node.go): render rect minus padding.  The source
checks each await error but then returns `Rect{}, nil`, discarding the
error — the zero rect with a nil error is modelled faithfully. -/
def getDrawRect : ℕ → LayoutNode → Ctx → Option (Except Err Rect)
  | 0, _, _ => none
  | fuel + 1, node, ctx =>
    match Future.await fuel node.data.width node ctx with
    | none => none
    | some (.error _) => some (.ok ⟨0, 0⟩)
    | some (.ok w) =>
      match Future.await fuel node.data.height node ctx with
      | none => none
      | some (.error _) => some (.ok ⟨0, 0⟩)
      | some (.ok h) =>
        some (.ok ⟨w - node.data.padding.left - node.data.padding.right,
                    h - node.data.padding.top - node.data.padding.bottom⟩)

/-- getBoundingRect (layout_node.go): render rect expanded by margin; here
await errors are propagated. -/
def getBoundingRect : ℕ → LayoutNode → Ctx → Option (Except Err Rect)
  | 0, _, _ => none
  | fuel + 1, node, ctx =>
    andThen (Future.await fuel node.data.width node ctx) fun w =>
      andThen (Future.await fuel node.data.height node ctx) fun h =>
        some (.ok ⟨w + node.data.margin.left + node.data.margin.right,
                    h + node.data.margin.top + node.data.margin.bottom⟩)

/-- Modelled from the spec: the helper `getBoundingHeight` used by the
intrinsic-sizing rules is not among the provided sources (only its callers
are); per the spec a bounding rect is the render rect expanded by margin,
so its height axis is the awaited height plus vertical margin, with await
errors propagated. -/
def getBoundingHeight : ℕ → LayoutNode → Ctx → Option (Except Err Size)
  | 0, _, _ => none
  | fuel + 1, node, ctx =>
    andThen (Future.await fuel node.data.height node ctx) fun h =>
      some (.ok (h + node.data.margin.top + node.data.margin.bottom))

/-- Modelled from the spec: width-axis counterpart of `getBoundingHeight`
(see there). -/
def getBoundingWidth : ℕ → LayoutNode → Ctx → Option (Except Err Size)
  | 0, _, _ => none
  | fuel + 1, node, ctx =>
    andThen (Future.await fuel node.data.width node ctx) fun w =>
      some (.ok (w + node.data.margin.left + node.data.margin.right))

/-- The sibling loop of `heightFill` (futures source): sum the bounding
heights of every sibling other than the node itself (index `selfIdx`). -/
def sumSiblingBoundingHeights : ℕ → NodeList → ℕ → ℕ → Ctx → Option (Except Err Size)
  | 0, _, _, _, _ => none
  | _ + 1, .nil, _, _, _ => some (.ok 0)
  | fuel + 1, .cons sib rest, j, selfIdx, ctx =>
    if j = selfIdx then
      sumSiblingBoundingHeights fuel rest (j + 1) selfIdx ctx
    else
      andThen (getBoundingRect fuel sib (ctx.withIdx j)) fun r =>
        andThen (sumSiblingBoundingHeights fuel rest (j + 1) selfIdx ctx) fun s =>
          some (.ok (r.height + s))

/-- The sibling loop of `widthFill` (futures source). -/
def sumSiblingBoundingWidths : ℕ → NodeList → ℕ → ℕ → Ctx → Option (Except Err Size)
  | 0, _, _, _, _ => none
  | _ + 1, .nil, _, _, _ => some (.ok 0)
  | fuel + 1, .cons sib rest, j, selfIdx, ctx =>
    if j = selfIdx then
      sumSiblingBoundingWidths fuel rest (j + 1) selfIdx ctx
    else
      andThen (getBoundingRect fuel sib (ctx.withIdx j)) fun r =>
        andThen (sumSiblingBoundingWidths fuel rest (j + 1) selfIdx ctx) fun s =>
          some (.ok (r.width + s))

/-- The summing child loop of `heightAsChildren` (futures source);
`cctx` is the context of child 0. -/
def sumChildBoundingHeights : ℕ → NodeList → ℕ → Ctx → Option (Except Err Size)
  | 0, _, _, _ => none
  | _ + 1, .nil, _, _ => some (.ok 0)
  | fuel + 1, .cons c rest, j, cctx =>
    andThen (getBoundingHeight fuel c (cctx.withIdx j)) fun h =>
      andThen (sumChildBoundingHeights fuel rest (j + 1) cctx) fun s =>
        some (.ok (h + s))

/-- The tallest-child loop of `heightAsChildren` (futures source): Go folds
`if height > tallest` left-to-right from 0; the model's right fold is equal
because max is associative and commutative. -/
def maxChildBoundingHeights : ℕ → NodeList → ℕ → Ctx → Option (Except Err Size)
  | 0, _, _, _ => none
  | _ + 1, .nil, _, _ => some (.ok 0)
  | fuel + 1, .cons c rest, j, cctx =>
    andThen (getBoundingHeight fuel c (cctx.withIdx j)) fun h =>
      andThen (maxChildBoundingHeights fuel rest (j + 1) cctx) fun t =>
        some (.ok (if h > t then h else t))

/-- The summing child loop of `widthAsChildren` (futures source). -/
def sumChildBoundingWidths : ℕ → NodeList → ℕ → Ctx → Option (Except Err Size)
  | 0, _, _, _ => none
  | _ + 1, .nil, _, _ => some (.ok 0)
  | fuel + 1, .cons c rest, j, cctx =>
    andThen (getBoundingWidth fuel c (cctx.withIdx j)) fun w =>
      andThen (sumChildBoundingWidths fuel rest (j + 1) cctx) fun s =>
        some (.ok (w + s))

/-- The widest-child loop of `widthAsChildren` (futures source). -/
def maxChildBoundingWidths : ℕ → NodeList → ℕ → Ctx → Option (Except Err Size)
  | 0, _, _, _ => none
  | _ + 1, .nil, _, _ => some (.ok 0)
  | fuel + 1, .cons c rest, j, cctx =>
    andThen (getBoundingWidth fuel c (cctx.withIdx j)) fun w =>
      andThen (maxChildBoundingWidths fuel rest (j + 1) cctx) fun t =>
        some (.ok (if w > t then w else t))

end

/-- Cursor of the position resolver (resolver.go `resolverCursor`). -/
structure ResolverCursor where
  x : Size
  y : Size
deriving Repr, DecidableEq

/-- The cursor advance between one positioned child and the next sibling
(the tail of the children loop, resolver.go: switch on the flow direction,
then on the cross-axis alignment).  `diffW`/`diffH` are current minus next
bounding extent; End shifts the cross axis by the full difference, Center
by half, Start (and any unrecognised alignment, since the Go switch has no
default) not at all; an unrecognised flow direction leaves the cursor
unchanged (the Go switch has no default there either, though the earlier
alignment phase already rejected it). -/
def advanceCursor (pf : LayoutNodeData) (cursor : ResolverCursor)
    (childBoundingRect nextBoundingRect : Rect) (nextNode : LayoutNode) :
    ResolverCursor :=
  let diffW := childBoundingRect.width - nextBoundingRect.width
  let diffH := childBoundingRect.height - nextBoundingRect.height
  if pf.childFlowDirection = FlowHorizontal then
    { x := cursor.x + childBoundingRect.width + nextNode.data.margin.left,
      y := cursor.y +
        (if pf.childAlignment.vertical = alignEnd then diffH
         else if pf.childAlignment.vertical = alignCenter then diffH / 2
         else 0) }
  else if pf.childFlowDirection = FlowVertical then
    { x := cursor.x +
        (if pf.childAlignment.horizontal = alignEnd then diffW
         else if pf.childAlignment.horizontal = alignCenter then diffW / 2
         else 0),
      y := cursor.y + childBoundingRect.height + nextNode.data.margin.top }
  else cursor

/-- The full-row/column measurement loop of the resolver (resolver.go:
sum of every child's bounding width and height, used by End/Center
starting offsets). -/
def sumChildBoundingSizes : ℕ → NodeList → ℕ → Ctx → Option (Except Err Rect)
  | 0, _, _, _ => none
  | _ + 1, .nil, _, _ => some (.ok ⟨0, 0⟩)
  | fuel + 1, .cons c rest, j, cctx =>
    andThen (getBoundingRect fuel c (cctx.withIdx j)) fun r =>
      andThen (sumChildBoundingSizes fuel rest (j + 1) cctx) fun s =>
        some (.ok ⟨r.width + s.width, r.height + s.height⟩)

mutual

/-- recursiveSetPositions (resolver.go): position the children of `node`,
whose own x/y were already fixed by the caller and whose render-rect
top-left corner is `cursor`.  Leaf nodes are a no-op.  The cursor is
restored before returning in Go, so the model returns only the
repositioned tree.  An unrecognised flow direction is the unhandled-flow
error. -/
def recursiveSetPositions : ℕ → LayoutNode → Ctx → ResolverCursor →
    Option (Except Err LayoutNode)
  | 0, _, _, _ => none
  | fuel + 1, node, ctx, cursor =>
    match node with
    | .mk fs cs =>
      match cs.headOpt with
      | none => some (.ok (.mk fs cs))
      | some firstChildNode =>
        andThen (getDrawRect fuel (.mk fs cs) ctx) fun parentDrawRect =>
          andThen (getBoundingRect fuel firstChildNode (.parentCtx fs cs 0 ctx))
            fun childBoundingRect =>
              andThen (sumChildBoundingSizes fuel cs 0 (.parentCtx fs cs 0 ctx))
                fun fullChildren =>
                  let cx := cursor.x + fs.padding.left
                  let cy := cursor.y + fs.padding.top
                  if fs.childFlowDirection = FlowVertical then
                    let sx := cx +
                      (if fs.childAlignment.horizontal = alignStart then
                        firstChildNode.data.margin.left
                      else if fs.childAlignment.horizontal = alignEnd then
                        parentDrawRect.width - childBoundingRect.width
                      else if fs.childAlignment.horizontal = alignCenter then
                        parentDrawRect.width / 2 - childBoundingRect.width / 2
                      else 0)
                    let sy := cy +
                      (if fs.childAlignment.vertical = alignStart then
                        firstChildNode.data.margin.top
                      else if fs.childAlignment.vertical = alignEnd then
                        parentDrawRect.height - fullChildren.height
                      else if fs.childAlignment.vertical = alignCenter then
                        (parentDrawRect.height - fullChildren.height) / 2
                      else 0)
                    andThen (walkChildren fuel fs cs ctx 0 cs ⟨sx, sy⟩)
                      fun cs2 => some (.ok (.mk fs cs2))
                  else if fs.childFlowDirection = FlowHorizontal then
                    let sx := cx +
                      (if fs.childAlignment.horizontal = alignStart then
                        firstChildNode.data.margin.left
                      else if fs.childAlignment.horizontal = alignEnd then
                        parentDrawRect.width - fullChildren.width
                      else if fs.childAlignment.horizontal = alignCenter then
                        (parentDrawRect.width - fullChildren.width) / 2
                      else 0)
                    let sy := cy +
                      (if fs.childAlignment.vertical = alignStart then
                        firstChildNode.data.margin.top
                      else if fs.childAlignment.vertical = alignEnd then
                        parentDrawRect.height - childBoundingRect.height
                      else if fs.childAlignment.vertical = alignCenter then
                        (parentDrawRect.height - childBoundingRect.height) / 2
                      else 0)
                    andThen (walkChildren fuel fs cs ctx 0 cs ⟨sx, sy⟩)
                      fun cs2 => some (.ok (.mk fs cs2))
                  else
                    some (.error (.unhandledFlow fs.childFlowDirection))

/-- The children loop of recursiveSetPositions (resolver.go): place the
child at the cursor, recurse into it, and when a next sibling exists
advance the cursor with `advanceCursor`.  The child's own bounding rect is
re-read with an unchecked error (resolver.go line 162): on an error Go
would silently continue with the zero rect, which this models; the next
sibling's bounding-rect error is checked and propagated. -/
def walkChildren : ℕ → LayoutNodeData → NodeList → Ctx → ℕ → NodeList →
    ResolverCursor → Option (Except Err NodeList)
  | 0, _, _, _, _, _, _ => none
  | _ + 1, _, _, _, _, .nil, _ => some (.ok .nil)
  | fuel + 1, pf, allCs, ctx, idx, .cons child rest, cursor =>
    let child1 := setXY child cursor.x cursor.y
    andThen (recursiveSetPositions fuel child1 (.parentCtx pf allCs idx ctx) cursor)
      fun child2 =>
        match getBoundingRect fuel child2 (.parentCtx pf allCs idx ctx) with
        | none => none
        | some cbrE =>
          let childBoundingRect := match cbrE with
            | .ok r => r
            | .error _ => (⟨0, 0⟩ : Rect)
          match rest with
          | .nil => some (.ok (.cons child2 .nil))
          | .cons nextNode _ =>
            andThen (getBoundingRect fuel nextNode (.parentCtx pf allCs (idx + 1) ctx))
              fun nextBoundingRect =>
                andThen (walkChildren fuel pf allCs ctx (idx + 1) rest
                    (advanceCursor pf cursor childBoundingRect nextBoundingRect nextNode))
                  fun rest2 => some (.ok (.cons child2 rest2))

end

/-- State of the pagination loop (resolver.go `resolveNodeRectPositions`):
the completed pages, the current page and the running cursor. -/
structure PgState where
  donePages : List Page
  curPage : Page
  cursor : ResolverCursor
deriving DecidableEq

/-- The top-level node offset by its own margin from the cursor
(resolver.go: `node.X = cursor.x + node.Margin.left`, same for Y). -/
def placedNode (st : PgState) (node : LayoutNode) : LayoutNode :=
  setXY node (st.cursor.x + node.data.margin.left)
    (st.cursor.y + node.data.margin.top)

/-- The context of the top-level node while it is resolved: `addNode` has
appended it to the current page (and set its Page back-pointer), so it is
child `len(children)` of the page holding it. -/
def stepCtx (st : PgState) (node : LayoutNode) : Ctx :=
  .pageCtx (st.curPage.addNode (placedNode st node)) st.curPage.children.length

/-- The cursor passed into recursiveSetPositions for a top-level node
(resolver.go: the cursor moved to the top-left corner of the node's render
rect, i.e. advanced by the node's own margin). -/
def stepCursor (st : PgState) (node : LayoutNode) : ResolverCursor :=
  ⟨st.cursor.x + node.data.margin.left, st.cursor.y + node.data.margin.top⟩

/-- One iteration of the pagination loop (resolver.go, loop body of
`resolveNodeRectPositions`): place the node at the cursor offset by its
margin and add it to the current page; resolve its subtree positions;
resolve its bounding rect; fail with the too-tall error when the bounding
height exceeds the page's (full) height; advance only the vertical cursor
by the bounding height; then, when a next top-level node exists, await its
height eagerly (the next node has neither parent nor page yet) and when
`cursor.y` plus that height would pass the page's draw-rect height minus
its bottom margin, append a page cloned from the current page's template
and reset the cursor to the new page's top-left margin origin. -/
def paginateStep (fuel : ℕ) (st : PgState) (node : LayoutNode)
    (next : Option LayoutNode) : Option (Except Err PgState) :=
  andThen (recursiveSetPositions fuel (placedNode st node) (stepCtx st node)
      (stepCursor st node)) fun node2 =>
    andThen (getBoundingRect fuel node2 (stepCtx st node)) fun nodeBoundingRect =>
      if nodeBoundingRect.height > st.curPage.height then
        some (.error (.nodeTooTall nodeBoundingRect.height st.curPage.height))
      else
        let placedPage := st.curPage.addNode node2
        let cursor1 : ResolverCursor := ⟨st.cursor.x, st.cursor.y + nodeBoundingRect.height⟩
        match next with
        | none => some (.ok ⟨st.donePages, placedPage, cursor1⟩)
        | some nextNode =>
          andThen (Future.await fuel nextNode.data.height nextNode .orphanCtx)
            fun nextHeight =>
              if cursor1.y + nextHeight >
                  placedPage.getDrawRect.height - placedPage.margin.bottom then
                let newPage := addPageFrom placedPage
                some (.ok ⟨st.donePages ++ [placedPage], newPage,
                  ⟨newPage.margin.left, newPage.margin.top⟩⟩)
              else
                some (.ok ⟨st.donePages, placedPage, cursor1⟩)

/-- The pagination loop over the document builder's top-level node list
(resolver.go `resolveNodeRectPositions`). -/
def paginate (fuel : ℕ) : PgState → NodeList → Option (Except Err PgState)
  | st, .nil => some (.ok st)
  | st, .cons node rest =>
    andThen (paginateStep fuel st node rest.headOpt) fun st2 =>
      paginate fuel st2 rest

/-- resolveNodeRectPositions (resolver.go): start on the document's single
initial page with the cursor at its top-left margin origin, run the loop,
and collect the pages. -/
def resolveNodeRectPositions (fuel : ℕ) (firstPage : Page) (nodes : NodeList) :
    Option (Except Err (List Page)) :=
  andThen (paginate fuel
      ⟨[], firstPage, ⟨firstPage.margin.left, firstPage.margin.top⟩⟩ nodes)
    fun st => some (.ok (st.donePages ++ [st.curPage]))

/-- newDocument (docspec.go): the initial page of a document with the
given width, height and singleton margin, and no nodes yet. -/
def newDocumentPage (width height margin : Size) : Page :=
  { width := width, height := height, margin := NewSingletonSizeQuad margin,
    children := .nil }

mutual

/-- Clone (layout_node.go): `root := *n` copies every field of the struct —
including the Width and Height futures together with the owner pointers
stored inside them — into a fresh allocation (modelled by a fresh address
drawn from the counter), resets the child list and appends a recursive
clone of every child.  Returns the clone and the next fresh address. -/
def LayoutNode.clone : LayoutNode → ℕ → LayoutNode × ℕ
  | .mk fs cs, fresh =>
    let r := NodeList.cloneAll cs (fresh + 1)
    (.mk { fs with addr := fresh } r.1, r.2)

/-- The children loop of Clone (layout_node.go, `addChild(child.Clone())`). -/
def NodeList.cloneAll : NodeList → ℕ → NodeList × ℕ
  | .nil, fresh => (.nil, fresh)
  | .cons c cs, fresh =>
    let r1 := LayoutNode.clone c fresh
    let r2 := NodeList.cloneAll cs r1.2
    (.cons r1.1 r2.1, r2.2)

end

mutual

/-- Erase every allocation address in a tree (set them all to 0); two trees
with the same stripAddr image agree on every Go struct field and on their
whole recursive structure, differing at most in where they are
allocated. -/
def LayoutNode.stripAddr : LayoutNode → LayoutNode
  | .mk fs cs => .mk { fs with addr := 0 } (NodeList.stripAddr cs)

/-- List version of `LayoutNode.stripAddr`. -/
def NodeList.stripAddr : NodeList → NodeList
  | .nil => .nil
  | .cons c cs => .cons c.stripAddr cs.stripAddr

end

mutual

/-- All allocation addresses of a tree, in preorder. -/
def LayoutNode.addrs : LayoutNode → List ℕ
  | .mk fs cs => fs.addr :: cs.addrs

/-- List version of `LayoutNode.addrs`. -/
def NodeList.addrs : NodeList → List ℕ
  | .nil => []
  | .cons c cs => c.addrs ++ cs.addrs

end

mutual

/-- The owner back-references stored in each node's Width and Height
futures, in preorder. -/
def LayoutNode.futureOwners : LayoutNode → List (Option ℕ × Option ℕ)
  | .mk fs cs => (fs.width.node, fs.height.node) :: cs.futureOwners

/-- List version of `LayoutNode.futureOwners`. -/
def NodeList.futureOwners : NodeList → List (Option ℕ × Option ℕ)
  | .nil => []
  | .cons c cs => c.futureOwners ++ cs.futureOwners

end

mutual

/-- A tree is self-bound when every node's Width and Height futures carry
that node's own address as owner — the state every constructor-built tree
is in (`Div`, `Text` and `Image` all assign `future.node = newNode`). -/
def LayoutNode.selfBound : LayoutNode → Bool
  | .mk fs cs =>
    decide (fs.width.node = some fs.addr) &&
      decide (fs.height.node = some fs.addr) && cs.selfBound

/-- List version of `LayoutNode.selfBound`. -/
def NodeList.selfBound : NodeList → Bool
  | .nil => true
  | .cons c cs => c.selfBound && cs.selfBound

end

/-- Verification-side collector: the list of the children's bounding
heights exactly as the child loops of `heightAsChildren` read them.  Used
to state the sum/max claims against the real maximum of that list. -/
def childBoundingHeightList : ℕ → NodeList → ℕ → Ctx → Option (Except Err (List Size))
  | 0, _, _, _ => none
  | _ + 1, .nil, _, _ => some (.ok [])
  | fuel + 1, .cons c rest, j, cctx =>
    andThen (getBoundingHeight fuel c (cctx.withIdx j)) fun h =>
      andThen (childBoundingHeightList fuel rest (j + 1) cctx) fun hs =>
        some (.ok (h :: hs))

/-- State-passing rendering of the pointer-receiver method `Future.await`:
the second component is the state of the receiver `*f` when the call
returns.  Every return path of the Go body leaves the receiver exactly as
it was — in particular the Pending branch returns the rule's result
without writing it back — which this branch-by-branch translation
records. -/
def Future.awaitS : ℕ → Future → LayoutNode → Ctx →
    Option (Except Err Size) × Future
  | 0, f, _, _ => (none, f)
  | fuel + 1, f, node, ctx =>
    match f.node with
    | none => (some (.error (.invariantViolation nilNodeFutureMsg)), f)
    | some _ =>
      if f.state = futureComplete then
        (some (.ok f.value), f)
      else
        (evalDefinition fuel f.definition f.params node ctx, f)

/-- An all-zero quad. -/
def zeroQuad : SizesQuad := NewSingletonSizeQuad 0

/-- A container-style node as the builder's `Div` constructor produces it:
no visual payload, unset position, and both futures bound to the node's
own address. -/
def simpleNode (addr : ℕ) (width height : Future) (margin padding : SizesQuad)
    (flow alignH alignV : ℕ) (children : NodeList) : LayoutNode :=
  .mk { addr := addr, visualNode := none, x := 0, y := 0,
        width := width.bindTo addr, height := height.bindTo addr,
        padding := padding, margin := margin,
        childAlignment := { vertical := alignV, horizontal := alignH },
        childFlowDirection := flow } children

/-- Fixture: fields of a 100 x 40 statically sized parent with zero
padding and margins, horizontal flow, Start alignment. -/
def egParentData : LayoutNodeData :=
  { addr := 0, visualNode := none, x := 0, y := 0,
    width := (StaticSize 100).bindTo 0, height := (StaticSize 40).bindTo 0,
    padding := zeroQuad, margin := zeroQuad,
    childAlignment := { vertical := alignStart, horizontal := alignStart },
    childFlowDirection := FlowHorizontal }

/-- Fixture: a 30-wide literal-sized sibling. -/
def egChildLit : LayoutNode :=
  simpleNode 1 (StaticSize 30) (StaticSize 40) zeroQuad zeroQuad
    FlowVertical alignStart alignStart .nil

/-- Fixture: a Fill-width sibling. -/
def egChildFill : LayoutNode :=
  simpleNode 2 WidthFill (StaticSize 40) zeroQuad zeroQuad
    FlowVertical alignStart alignStart .nil

/-- Fixture: the sibling list Literal(30), Fill. -/
def egSibs : NodeList := .cons egChildLit (.cons egChildFill .nil)

/-- Fixture: statically sized children of heights 10, 20 and 15 with zero
margins, for the intrinsic-size instances. -/
def egH10 : LayoutNode :=
  simpleNode 11 (StaticSize 8) (StaticSize 10) zeroQuad zeroQuad
    FlowVertical alignStart alignStart .nil

/-- Fixture: height-20 child (see `egH10`). -/
def egH20 : LayoutNode :=
  simpleNode 12 (StaticSize 8) (StaticSize 20) zeroQuad zeroQuad
    FlowVertical alignStart alignStart .nil

/-- Fixture: height-15 child (see `egH10`). -/
def egH15 : LayoutNode :=
  simpleNode 13 (StaticSize 8) (StaticSize 15) zeroQuad zeroQuad
    FlowVertical alignStart alignStart .nil

/-- Fixture: the child list of heights 10, 20, 15. -/
def egHKids : NodeList := .cons egH10 (.cons egH20 (.cons egH15 .nil))

/-- Fixture: fields of a zero-padding vertical-flow container for the
intrinsic-size instances. -/
def egVertContainerData : LayoutNodeData :=
  { addr := 10, visualNode := none, x := 0, y := 0,
    width := (StaticSize 8).bindTo 10, height := HeightAsChildren.bindTo 10,
    padding := zeroQuad, margin := zeroQuad,
    childAlignment := { vertical := alignStart, horizontal := alignStart },
    childFlowDirection := FlowVertical }

/-- Fixture: the same container fields with horizontal flow. -/
def egHorizContainerData : LayoutNodeData :=
  { egVertContainerData with childFlowDirection := FlowHorizontal }

/-- Fixture: the initial Letter-size page (216 x 279) with singleton
margin 5 — the document template of the paging instances; its usable
(draw-rect) height is 269. -/
def letterPage : Page := newDocumentPage 216 279 5

/-- Fixture: a top-level node of static height 150 (page-break instance). -/
def egTop150a : LayoutNode :=
  simpleNode 21 (StaticSize 100) (StaticSize 150) zeroQuad zeroQuad
    FlowVertical alignStart alignStart .nil

/-- Fixture: a second top-level node of static height 150. -/
def egTop150b : LayoutNode :=
  simpleNode 22 (StaticSize 100) (StaticSize 150) zeroQuad zeroQuad
    FlowVertical alignStart alignStart .nil

/-- Fixture: a top-level node of static height 275 — taller than the
page's inner height 269 but not taller than the page height 279. -/
def egTop275 : LayoutNode :=
  simpleNode 23 (StaticSize 100) (StaticSize 275) zeroQuad zeroQuad
    FlowVertical alignStart alignStart .nil

/-- Fixture: a top-level node of static height 300 — taller than the page
height 279. -/
def egTop300 : LayoutNode :=
  simpleNode 24 (StaticSize 100) (StaticSize 300) zeroQuad zeroQuad
    FlowVertical alignStart alignStart .nil

/-- Fixture: a width-20 child of the centered column (cross-axis
alignment instance). -/
def egW20 : LayoutNode :=
  simpleNode 32 (StaticSize 20) (StaticSize 10) zeroQuad zeroQuad
    FlowVertical alignStart alignStart .nil

/-- Fixture: a width-40 child of the centered column. -/
def egW40 : LayoutNode :=
  simpleNode 33 (StaticSize 40) (StaticSize 10) zeroQuad zeroQuad
    FlowVertical alignStart alignStart .nil

/-- Fixture: the child list widths 20, 40. -/
def egWKids : NodeList := .cons egW20 (.cons egW40 .nil)

/-- Fixture: a 100-wide container with vertical flow and horizontally
centered children of widths 20 and 40. -/
def egCenterContainer : LayoutNode :=
  simpleNode 31 (StaticSize 100) (StaticSize 20) zeroQuad zeroQuad
    FlowVertical alignCenter alignStart egWKids

/-- Fixture: a pending percentage future bound to address 3. -/
def egPendingFuture : Future := (WidthPercentage 50).bindTo 3

/-- Fixture: a resolved future of value 70 bound to address 4. -/
def egResolvedFuture : Future := (StaticSize 70).bindTo 4

/-- Fixture: a pending future that was never bound to a node. -/
def egUnboundFuture : Future := WidthPercentage 50

/-- Fixture: an orphan node (no parent, no page) whose width rule is
Percentage(50) — awaiting its width fails with the orphan error, which
`getDrawRect` then swallows. -/
def egOrphanPctNode : LayoutNode :=
  simpleNode 41 (WidthPercentage 50) (StaticSize 40) zeroQuad zeroQuad
    FlowVertical alignStart alignStart .nil

/-- Fixture: a two-level self-bound tree for the clone instance. -/
def egCloneChild1 : LayoutNode :=
  simpleNode 1 (StaticSize 30) (StaticSize 40) zeroQuad zeroQuad
    FlowVertical alignStart alignStart .nil

/-- Fixture: second child of the clone instance tree. -/
def egCloneChild2 : LayoutNode :=
  simpleNode 2 (StaticSize 50) (StaticSize 60) zeroQuad zeroQuad
    FlowVertical alignStart alignStart .nil

/-- Fixture: root of the clone instance tree (addresses 0, 1, 2). -/
def egCloneRoot : LayoutNode :=
  simpleNode 0 (StaticSize 100) (StaticSize 200) zeroQuad zeroQuad
    FlowVertical alignStart alignStart (.cons egCloneChild1 (.cons egCloneChild2 .nil))

/-! Helper lemmas shared between claims. -/

/-- The positioned tree returned by recursiveSetPositions keeps the node's
own fields: only its children (recursively) are repositioned. -/
theorem recursiveSetPositions_data (fuel : ℕ) (node node2 : LayoutNode)
    (ctx : Ctx) (cursor : ResolverCursor)
    (h : recursiveSetPositions fuel node ctx cursor = some (.ok node2)) :
    node2.data = node.data := by
  cases fuel with
  | zero => simp [recursiveSetPositions] at h
  | succ fuel =>
    cases node with
    | mk fs cs =>
      cases node2 with
      | mk fs2 cs2 =>
        simp only [recursiveSetPositions, andThen] at h
        repeat' split at h
        all_goals simp_all [LayoutNode.data]

/-- Go's running-maximum update is the binary max. -/
theorem ite_gt_eq_max (a b : Size) : (if a > b then a else b) = max a b := by
  rcases le_or_lt a b with hle | hlt
  · simp [max_eq_right hle, not_lt.mpr hle]
  · simp [hlt, max_eq_left hlt.le]

/-- Upper bound for the right fold of max with base 0. -/
theorem foldr_max_le (bs : List Size) (m : Size) (hub : ∀ b ∈ bs, b ≤ m)
    (h0 : 0 ≤ m) : bs.foldr max 0 ≤ m := by
  induction bs with
  | nil => simpa using h0
  | cons b t ih =>
    simp only [List.foldr_cons, max_le_iff]
    exact ⟨hub b (by simp), ih fun x hx => hub x (by simp [hx])⟩

/-- The right fold of max with base 0 computes the maximum of a list of
values that has a nonnegative greatest element. -/
theorem foldr_max_eq (bs : List Size) (m : Size) (hm : m ∈ bs)
    (hub : ∀ b ∈ bs, b ≤ m) (h0 : 0 ≤ m) : bs.foldr max 0 = m := by
  induction bs with
  | nil => simp at hm
  | cons b t ih =>
    simp only [List.foldr_cons]
    rcases List.mem_cons.mp hm with hb | ht
    · subst hb
      have hle : t.foldr max 0 ≤ m := foldr_max_le t m (fun x hx => hub x (by simp [hx])) h0
      exact max_eq_left hle
    · have hb : b ≤ m := hub b (by simp)
      have : t.foldr max 0 = m := ih ht fun x hx => hub x (by simp [hx])
      rw [this]
      exact max_eq_right hb

/-- The summing child loop returns the sum of the collected bounding
heights. -/
theorem sumChild_eq_listSum :
    ∀ (cs : NodeList) (fuel j : ℕ) (cctx : Ctx) (bs : List Size),
      childBoundingHeightList fuel cs j cctx = some (.ok bs) →
      sumChildBoundingHeights fuel cs j cctx = some (.ok bs.sum)
  | .nil, fuel, j, cctx, bs, h => by
    cases fuel <;> simp_all [childBoundingHeightList, sumChildBoundingHeights]
  | .cons c rest, fuel, j, cctx, bs, h => by
    cases fuel with
    | zero => simp [childBoundingHeightList] at h
    | succ m =>
      simp only [childBoundingHeightList, andThen] at h
      cases hg : getBoundingHeight m c (cctx.withIdx j) with
      | none => rw [hg] at h; exact absurd h (by simp)
      | some rg =>
        cases rg with
        | error e => rw [hg] at h; simp at h
        | ok v =>
          rw [hg] at h
          cases hrest : childBoundingHeightList m rest (j + 1) cctx with
          | none => rw [hrest] at h; exact absurd h (by simp)
          | some rr =>
            cases rr with
            | error e => rw [hrest] at h; simp at h
            | ok hs =>
              rw [hrest] at h
              simp only [Option.some.injEq, Except.ok.injEq] at h
              subst h
              have ih := sumChild_eq_listSum rest m (j + 1) cctx hs hrest
              simp [sumChildBoundingHeights, andThen, hg, ih]

/-- The tallest-child loop returns the max-fold of the collected bounding
heights. -/
theorem maxChild_eq_listMax :
    ∀ (cs : NodeList) (fuel j : ℕ) (cctx : Ctx) (bs : List Size),
      childBoundingHeightList fuel cs j cctx = some (.ok bs) →
      maxChildBoundingHeights fuel cs j cctx = some (.ok (bs.foldr max 0))
  | .nil, fuel, j, cctx, bs, h => by
    cases fuel <;> simp_all [childBoundingHeightList, maxChildBoundingHeights]
  | .cons c rest, fuel, j, cctx, bs, h => by
    cases fuel with
    | zero => simp [childBoundingHeightList] at h
    | succ m =>
      simp only [childBoundingHeightList, andThen] at h
      cases hg : getBoundingHeight m c (cctx.withIdx j) with
      | none => rw [hg] at h; exact absurd h (by simp)
      | some rg =>
        cases rg with
        | error e => rw [hg] at h; simp at h
        | ok v =>
          rw [hg] at h
          cases hrest : childBoundingHeightList m rest (j + 1) cctx with
          | none => rw [hrest] at h; exact absurd h (by simp)
          | some rr =>
            cases rr with
            | error e => rw [hrest] at h; simp at h
            | ok hs =>
              rw [hrest] at h
              simp only [Option.some.injEq, Except.ok.injEq] at h
              subst h
              have ih := maxChild_eq_listMax rest m (j + 1) cctx hs hrest
              simp [maxChildBoundingHeights, andThen, hg, ih, ite_gt_eq_max]

/-- C1: the Percentage(axis, pct) size rule resolves the parent's (or
enclosing page's) draw rect and returns that draw extent times pct/100;
it fails with the OrphanNode error when the node has neither parent nor
page, or when the parent's draw extent on the axis is exactly zero. -/
theorem percentage_rule_correct (fuel : ℕ) (node : LayoutNode) (pct : Size) :
    (widthPercentage (fuel + 1) node .orphanCtx (some pct) =
        some (.error (.invariantViolation orphanWidthMsg)) ∧
      heightPercentage (fuel + 1) node .orphanCtx (some pct) =
        some (.error (.invariantViolation orphanHeightMsg))) ∧
    (∀ pf sibs i up r, getDrawRect fuel (.mk pf sibs) up = some (.ok r) →
      (widthPercentage (fuel + 1) node (.parentCtx pf sibs i up) (some pct) =
        if r.width = 0 then some (.error (.invariantViolation orphanWidthMsg))
        else some (.ok (r.width * (pct / 100)))) ∧
      (heightPercentage (fuel + 1) node (.parentCtx pf sibs i up) (some pct) =
        if r.height = 0 then some (.error (.invariantViolation orphanHeightMsg))
        else some (.ok (r.height * (pct / 100))))) ∧
    (∀ p i,
      (widthPercentage (fuel + 1) node (.pageCtx p i) (some pct) =
        if p.getDrawRect.width = 0 then
          some (.error (.invariantViolation orphanWidthMsg))
        else some (.ok (p.getDrawRect.width * (pct / 100)))) ∧
      (heightPercentage (fuel + 1) node (.pageCtx p i) (some pct) =
        if p.getDrawRect.height = 0 then
          some (.error (.invariantViolation orphanHeightMsg))
        else some (.ok (p.getDrawRect.height * (pct / 100))))) := by
  refine ⟨⟨?_, ?_⟩, fun pf sibs i up r h => ⟨?_, ?_⟩, fun p i => ⟨?_, ?_⟩⟩ <;>
    simp [widthPercentage, heightPercentage, widthPercentageResult,
      heightPercentageResult, andThen, *]

/-- Witness for C1: under a 100 x 40 parent, Percentage(width, 50)
resolves to 50, and with neither parent nor page it is the orphan
error. -/
theorem percentage_rule_correct_witness :
    widthPercentage 10 egChildFill (.parentCtx egParentData egSibs 1 .orphanCtx)
        (some 50) = some (.ok 50) ∧
    widthPercentage 10 egChildFill .orphanCtx (some 50) =
      some (.error (.invariantViolation orphanWidthMsg)) := by
  have hdr : getDrawRect 9 (.mk egParentData egSibs) .orphanCtx =
      some (.ok ⟨100, 40⟩) := by
    norm_num [getDrawRect, Future.await, egParentData, Future.bindTo, StaticSize,
      newCompleteFuture, emptySize, LayoutNode.data, futureComplete, zeroQuad,
      NewSingletonSizeQuad]
  have h := percentage_rule_correct 9 egChildFill 50
  have hp := (h.2.1 egParentData egSibs 1 .orphanCtx ⟨100, 40⟩ hdr).1
  have ho := h.1.1
  norm_num at hp ho ⊢
  exact ⟨hp, ho⟩

/-- C2: the Fill(axis) rule degenerates to Percentage(axis, 100) when the
parent's flow direction is perpendicular to the axis (for a node placed
directly on a page the flow counts as vertical, so width-Fill on a page
always degenerates); otherwise it returns the parent's draw extent minus
the bounding extents of all other siblings minus the node's own margin on
the axis; and it fails with the OrphanNode error under the same conditions
as Percentage (no parent and no page, or a zero parent draw extent). -/
theorem fill_rule_correct (fuel : ℕ) (node : LayoutNode) :
    (widthFill (fuel + 1) node .orphanCtx =
        some (.error (.invariantViolation orphanWidthMsg)) ∧
      heightFill (fuel + 1) node .orphanCtx =
        some (.error (.invariantViolation orphanHeightMsg))) ∧
    (∀ pf sibs i up r, getDrawRect fuel (.mk pf sibs) up = some (.ok r) →
      ((r.width = 0 → widthFill (fuel + 1) node (.parentCtx pf sibs i up) =
          some (.error (.invariantViolation orphanWidthMsg))) ∧
        (r.width ≠ 0 → pf.childFlowDirection = FlowVertical →
          widthFill (fuel + 1) node (.parentCtx pf sibs i up) =
            widthPercentage fuel node (.parentCtx pf sibs i up) (some 100)) ∧
        (r.width ≠ 0 → pf.childFlowDirection ≠ FlowVertical →
          ∀ s, sumSiblingBoundingWidths fuel sibs 0 i (.parentCtx pf sibs i up) =
              some (.ok s) →
            widthFill (fuel + 1) node (.parentCtx pf sibs i up) =
              some (.ok (r.width - s -
                (node.data.margin.left + node.data.margin.right))))) ∧
      ((r.height = 0 → heightFill (fuel + 1) node (.parentCtx pf sibs i up) =
          some (.error (.invariantViolation orphanHeightMsg))) ∧
        (r.height ≠ 0 → pf.childFlowDirection = FlowHorizontal →
          heightFill (fuel + 1) node (.parentCtx pf sibs i up) =
            heightPercentage fuel node (.parentCtx pf sibs i up) (some 100)) ∧
        (r.height ≠ 0 → pf.childFlowDirection ≠ FlowHorizontal →
          ∀ s, sumSiblingBoundingHeights fuel sibs 0 i (.parentCtx pf sibs i up) =
              some (.ok s) →
            heightFill (fuel + 1) node (.parentCtx pf sibs i up) =
              some (.ok (r.height - s -
                (node.data.margin.top + node.data.margin.bottom)))))) ∧
    (∀ p i,
      ((p.getDrawRect.width = 0 → widthFill (fuel + 1) node (.pageCtx p i) =
          some (.error (.invariantViolation orphanWidthMsg))) ∧
        (p.getDrawRect.width ≠ 0 → widthFill (fuel + 1) node (.pageCtx p i) =
          widthPercentage fuel node (.pageCtx p i) (some 100))) ∧
      ((p.getDrawRect.height = 0 → heightFill (fuel + 1) node (.pageCtx p i) =
          some (.error (.invariantViolation orphanHeightMsg))) ∧
        (p.getDrawRect.height ≠ 0 →
          ∀ s, sumSiblingBoundingHeights fuel p.children 0 i (.pageCtx p i) =
              some (.ok s) →
            heightFill (fuel + 1) node (.pageCtx p i) =
              some (.ok (p.getDrawRect.height - s -
                (node.data.margin.top + node.data.margin.bottom)))))) := by
  refine ⟨⟨?_, ?_⟩,
    fun pf sibs i up r h => ⟨⟨?_, ?_, ?_⟩, ⟨?_, ?_, ?_⟩⟩,
    fun p i => ⟨⟨?_, ?_⟩, ⟨?_, ?_⟩⟩⟩ <;>
    intros <;>
    simp_all [widthFill, heightFill, andThen]

/-- Witness for C2: one sibling Literal(30) and one Fill in a 100-wide
draw rect with zero margins and horizontal flow resolve the Fill width to
70, and on the perpendicular axis the same node's Fill height equals
Percentage(height, 100). -/
theorem fill_rule_correct_witness :
    widthFill 10 egChildFill (.parentCtx egParentData egSibs 1 .orphanCtx) =
      some (.ok 70) ∧
    heightFill 10 egChildFill (.parentCtx egParentData egSibs 1 .orphanCtx) =
      heightPercentage 9 egChildFill (.parentCtx egParentData egSibs 1 .orphanCtx)
        (some 100) := by
  have hdr : getDrawRect 9 (.mk egParentData egSibs) .orphanCtx =
      some (.ok ⟨100, 40⟩) := by
    norm_num [getDrawRect, Future.await, egParentData, Future.bindTo, StaticSize,
      newCompleteFuture, emptySize, LayoutNode.data, futureComplete, zeroQuad,
      NewSingletonSizeQuad]
  have hsum : sumSiblingBoundingWidths 9 egSibs 0 1
      (.parentCtx egParentData egSibs 1 .orphanCtx) = some (.ok 30) := by
    norm_num [sumSiblingBoundingWidths, getBoundingRect, Future.await, andThen,
      Ctx.withIdx, egSibs, egChildLit, egChildFill, simpleNode, Future.bindTo,
      StaticSize, WidthFill, newCompleteFuture, newIncompleteFuture, emptySize,
      LayoutNode.data, futureComplete, futureIncomplete, zeroQuad,
      NewSingletonSizeQuad]
  have h := fill_rule_correct 9 egChildFill
  have hpar := h.2.1 egParentData egSibs 1 .orphanCtx ⟨100, 40⟩ hdr
  have hw := hpar.1.2.2 (by norm_num)
    (by norm_num [egParentData, FlowHorizontal, FlowVertical]) 30 hsum
  have hh := hpar.2.2.1 (by norm_num)
    (by norm_num [egParentData, FlowHorizontal])
  refine ⟨?_, ?_⟩
  · rw [show (10 : ℕ) = 9 + 1 from rfl, hw]
    norm_num [egChildFill, simpleNode, LayoutNode.data, zeroQuad, NewSingletonSizeQuad]
  · rw [show (10 : ℕ) = 9 + 1 from rfl, hh]

/-- C3: for a container (not the single-visual-leaf wrapper case), the
IntrinsicAsChildren height rule returns the sum of the children's bounding
heights plus the node's vertical padding when the axis is parallel to the
flow direction (any non-horizontal flow), and the maximum of the
children's bounding heights plus padding when the flow is horizontal
(stated for a nonnegative maximum, matching the source's running maximum
that starts at zero). -/
theorem intrinsic_as_children_correct (fuel : ℕ) (fs : LayoutNodeData)
    (cs : NodeList) (ctx : Ctx) (bs : List Size)
    (hleaf : leafVisual cs = none)
    (hlist : childBoundingHeightList fuel cs 0 (.parentCtx fs cs 0 ctx) =
      some (.ok bs)) :
    (fs.childFlowDirection ≠ FlowHorizontal →
      heightAsChildren (fuel + 1) (.mk fs cs) ctx =
        some (.ok (bs.sum + fs.padding.top + fs.padding.bottom))) ∧
    (∀ m, fs.childFlowDirection = FlowHorizontal → m ∈ bs →
      (∀ b ∈ bs, b ≤ m) → 0 ≤ m →
      heightAsChildren (fuel + 1) (.mk fs cs) ctx =
        some (.ok (m + fs.padding.top + fs.padding.bottom))) := by
  constructor
  · intro hflow
    have hs := sumChild_eq_listSum cs fuel 0 (.parentCtx fs cs 0 ctx) bs hlist
    simp [heightAsChildren, hleaf, hflow, andThen, hs, add_assoc]
  · intro m hflow hm hub h0
    have hx := maxChild_eq_listMax cs fuel 0 (.parentCtx fs cs 0 ctx) bs hlist
    have hfold : bs.foldr max 0 = m := foldr_max_eq bs m hm hub h0
    simp [heightAsChildren, hleaf, hflow, andThen, hx, hfold, add_assoc]

/-- Witness for C3: three vertically flowed children of heights 10, 20 and
15 with zero padding give an IntrinsicAsChildren height of 45; with
horizontal flow the same children give 20 (the maximum). -/
theorem intrinsic_as_children_correct_witness :
    heightAsChildren 10 (.mk egVertContainerData egHKids) .orphanCtx =
      some (.ok 45) ∧
    heightAsChildren 10 (.mk egHorizContainerData egHKids) .orphanCtx =
      some (.ok 20) := by
  have hlv : childBoundingHeightList 9 egHKids 0
      (.parentCtx egVertContainerData egHKids 0 .orphanCtx) =
      some (.ok [10, 20, 15]) := by
    norm_num [childBoundingHeightList, getBoundingHeight, Future.await, andThen,
      Ctx.withIdx, egHKids, egH10, egH20, egH15, simpleNode, Future.bindTo,
      StaticSize, newCompleteFuture, emptySize, LayoutNode.data, futureComplete,
      zeroQuad, NewSingletonSizeQuad]
  have hlh : childBoundingHeightList 9 egHKids 0
      (.parentCtx egHorizContainerData egHKids 0 .orphanCtx) =
      some (.ok [10, 20, 15]) := by
    norm_num [childBoundingHeightList, getBoundingHeight, Future.await, andThen,
      Ctx.withIdx, egHKids, egH10, egH20, egH15, simpleNode, Future.bindTo,
      StaticSize, newCompleteFuture, emptySize, LayoutNode.data, futureComplete,
      zeroQuad, NewSingletonSizeQuad]
  have hleaf : leafVisual egHKids = none := by
    norm_num [leafVisual, egHKids]
  have h1 := (intrinsic_as_children_correct 9 egVertContainerData egHKids
    .orphanCtx [10, 20, 15] hleaf hlv).1
    (by norm_num [egVertContainerData, FlowVertical, FlowHorizontal])
  have h2 := (intrinsic_as_children_correct 9 egHorizContainerData egHKids
    .orphanCtx [10, 20, 15] hleaf hlh).2 20
    (by norm_num [egHorizContainerData, egVertContainerData, FlowHorizontal])
    (by norm_num) (by intro b hb; fin_cases hb <;> norm_num) (by norm_num)
  constructor
  · rw [show (10 : ℕ) = 9 + 1 from rfl, h1]
    norm_num [egVertContainerData, zeroQuad, NewSingletonSizeQuad]
  · rw [show (10 : ℕ) = 9 + 1 from rfl, h2]
    norm_num [egHorizContainerData, egVertContainerData, zeroQuad, NewSingletonSizeQuad]

/-- C4: after a top-level node is placed (its subtree positioned, its
bounding rect resolved, the too-tall check passed), if a next top-level
node exists and the advanced cursor's y plus that node's eagerly awaited
height would pass the page's usable bottom boundary (its draw-rect height
minus its bottom margin, in the cursor coordinates that start at the top
margin), then the step appends the filled page to the document, continues
on a fresh page with the same width, height and margin as the current
page and no children, and resets the cursor to the new page's top-left
margin origin. -/
theorem page_break_correct (fuel : ℕ) (st : PgState)
    (node nextNode node2 : LayoutNode) (br : Rect) (nextHeight : Size)
    (hpos : recursiveSetPositions fuel (placedNode st node) (stepCtx st node)
      (stepCursor st node) = some (.ok node2))
    (hbr : getBoundingRect fuel node2 (stepCtx st node) = some (.ok br))
    (hfit : ¬ br.height > st.curPage.height)
    (hnext : Future.await fuel nextNode.data.height nextNode .orphanCtx =
      some (.ok nextHeight))
    (hover : st.cursor.y + br.height + nextHeight >
      (st.curPage.addNode node2).getDrawRect.height -
        (st.curPage.addNode node2).margin.bottom) :
    paginateStep fuel st node (some nextNode) =
      some (.ok ⟨st.donePages ++ [st.curPage.addNode node2],
        addPageFrom (st.curPage.addNode node2),
        ⟨(addPageFrom (st.curPage.addNode node2)).margin.left,
          (addPageFrom (st.curPage.addNode node2)).margin.top⟩⟩) ∧
    (addPageFrom (st.curPage.addNode node2)).width = st.curPage.width ∧
    (addPageFrom (st.curPage.addNode node2)).height = st.curPage.height ∧
    (addPageFrom (st.curPage.addNode node2)).margin = st.curPage.margin ∧
    (addPageFrom (st.curPage.addNode node2)).children = .nil := by
  refine ⟨?_, by simp [addPageFrom, Page.addNode], by simp [addPageFrom, Page.addNode],
    by simp [addPageFrom, Page.addNode], by simp [addPageFrom]⟩
  simp [paginateStep, andThen, hpos, hbr, hfit, hnext, hover]

/-- Witness for C4: on the Letter template (usable height 269), a first
node of height 150 is placed with the cursor reaching 155, and the second
height-150 node (155 + 150 = 305 past the boundary 264) triggers a fresh
216 x 279 margin-5 page with the cursor reset to (5, 5). -/
theorem page_break_correct_witness :
    paginateStep 9 ⟨[], letterPage, ⟨5, 5⟩⟩ egTop150a (some egTop150b) =
      some (.ok ⟨[letterPage.addNode (setXY egTop150a 5 5)],
        addPageFrom (letterPage.addNode (setXY egTop150a 5 5)), ⟨5, 5⟩⟩) ∧
    (addPageFrom (letterPage.addNode (setXY egTop150a 5 5))).width = 216 ∧
    (addPageFrom (letterPage.addNode (setXY egTop150a 5 5))).height = 279 ∧
    (addPageFrom (letterPage.addNode (setXY egTop150a 5 5))).children = .nil := by
  have hpos : recursiveSetPositions 9
      (placedNode ⟨[], letterPage, ⟨5, 5⟩⟩ egTop150a)
      (stepCtx ⟨[], letterPage, ⟨5, 5⟩⟩ egTop150a)
      (stepCursor ⟨[], letterPage, ⟨5, 5⟩⟩ egTop150a) =
      some (.ok (setXY egTop150a 5 5)) := by
    norm_num [recursiveSetPositions, placedNode, stepCtx, stepCursor, setXY,
      NodeList.headOpt, egTop150a, simpleNode, LayoutNode.data, LayoutNode.children,
      zeroQuad, NewSingletonSizeQuad]
  have hbr : getBoundingRect 9 (setXY egTop150a 5 5)
      (stepCtx ⟨[], letterPage, ⟨5, 5⟩⟩ egTop150a) = some (.ok ⟨100, 150⟩) := by
    norm_num [getBoundingRect, Future.await, andThen, setXY, egTop150a, simpleNode,
      Future.bindTo, StaticSize, newCompleteFuture, emptySize, LayoutNode.data,
      futureComplete, zeroQuad, NewSingletonSizeQuad]
  have hnext : Future.await 9 egTop150b.data.height egTop150b .orphanCtx =
      some (.ok 150) := by
    norm_num [Future.await, egTop150b, simpleNode, Future.bindTo, StaticSize,
      newCompleteFuture, emptySize, LayoutNode.data, futureComplete,
      zeroQuad, NewSingletonSizeQuad]
  have h := page_break_correct 9 ⟨[], letterPage, ⟨5, 5⟩⟩ egTop150a egTop150b
    (setXY egTop150a 5 5) ⟨100, 150⟩ 150 hpos hbr
    (by norm_num [letterPage, newDocumentPage])
    hnext
    (by norm_num [letterPage, newDocumentPage, Page.addNode, Page.getDrawRect,
      NewSingletonSizeQuad])
  refine ⟨h.1, ?_, ?_, h.2.2.2.2⟩
  · rw [h.2.1]; norm_num [letterPage, newDocumentPage]
  · rw [h.2.2.1]; norm_num [letterPage, newDocumentPage]

/-- C5 (amended): a pagination step fails with the too-tall error exactly
when the node's resolved bounding height exceeds the page's FULL height
(`currentPage.Height`, margins not subtracted) — for every cursor
position, every already-done page list and every position in the sequence
(the statement quantifies over the whole paginator state and over whether
a next node exists, given that the node's geometry and the next node's
eager height resolve). -/
theorem node_too_tall_check (fuel : ℕ) (st : PgState) (node node2 : LayoutNode)
    (next : Option LayoutNode) (br : Rect)
    (hpos : recursiveSetPositions fuel (placedNode st node) (stepCtx st node)
      (stepCursor st node) = some (.ok node2))
    (hbr : getBoundingRect fuel node2 (stepCtx st node) = some (.ok br))
    (hnx : next = none ∨ ∃ nextNode nh, next = some nextNode ∧
      Future.await fuel nextNode.data.height nextNode .orphanCtx = some (.ok nh)) :
    paginateStep fuel st node next =
        some (.error (.nodeTooTall br.height st.curPage.height)) ↔
      br.height > st.curPage.height := by
  constructor
  · intro hres
    by_contra hn
    rcases hnx with hnone | ⟨nextNode, nh, hsome, hawait⟩
    · subst hnone
      simp [paginateStep, andThen, hpos, hbr, hn] at hres
    · subst hsome
      simp only [paginateStep, andThen, hpos, hbr, hawait] at hres
      rw [if_neg hn] at hres
      split at hres <;> simp_all
  · intro hgt
    simp [paginateStep, andThen, hpos, hbr, hgt]

/-- Witness for C5 (amended): a top-level node of bounding height 300 on a
279-high page fails with the too-tall error 300 > 279. -/
theorem node_too_tall_check_witness :
    paginateStep 9 ⟨[], letterPage, ⟨5, 5⟩⟩ egTop300 none =
      some (.error (.nodeTooTall 300 279)) := by
  have hpos : recursiveSetPositions 9
      (placedNode ⟨[], letterPage, ⟨5, 5⟩⟩ egTop300)
      (stepCtx ⟨[], letterPage, ⟨5, 5⟩⟩ egTop300)
      (stepCursor ⟨[], letterPage, ⟨5, 5⟩⟩ egTop300) =
      some (.ok (setXY egTop300 5 5)) := by
    norm_num [recursiveSetPositions, placedNode, stepCtx, stepCursor, setXY,
      NodeList.headOpt, egTop300, simpleNode, LayoutNode.data, LayoutNode.children,
      zeroQuad, NewSingletonSizeQuad]
  have hbr : getBoundingRect 9 (setXY egTop300 5 5)
      (stepCtx ⟨[], letterPage, ⟨5, 5⟩⟩ egTop300) = some (.ok ⟨100, 300⟩) := by
    norm_num [getBoundingRect, Future.await, andThen, setXY, egTop300, simpleNode,
      Future.bindTo, StaticSize, newCompleteFuture, emptySize, LayoutNode.data,
      futureComplete, zeroQuad, NewSingletonSizeQuad]
  have h := (node_too_tall_check 9 ⟨[], letterPage, ⟨5, 5⟩⟩ egTop300
    (setXY egTop300 5 5) none ⟨100, 300⟩ hpos hbr (Or.inl rfl)).mpr
    (by norm_num [letterPage, newDocumentPage])
  simpa [letterPage, newDocumentPage] using h

/-- Counterexample to C5 as stated: a top-level node of bounding height
275 exceeds the page's inner height 269 (279 minus top and bottom margins
of 5), yet pagination succeeds and places the node — the source compares
against the full page height, not the inner height. -/
theorem node_too_tall_inner_counterexample :
    (275 : Size) > letterPage.height - letterPage.margin.top - letterPage.margin.bottom ∧
    getBoundingRect 9 (setXY egTop275 5 5)
      (stepCtx ⟨[], letterPage, ⟨5, 5⟩⟩ egTop275) = some (.ok ⟨100, 275⟩) ∧
    resolveNodeRectPositions 10 letterPage (.cons egTop275 .nil) =
      some (.ok [letterPage.addNode (setXY egTop275 5 5)]) := by
  refine ⟨by norm_num [letterPage, newDocumentPage, NewSingletonSizeQuad], ?_, ?_⟩
  · norm_num [getBoundingRect, Future.await, andThen, setXY, egTop275, simpleNode,
      Future.bindTo, StaticSize, newCompleteFuture, emptySize, LayoutNode.data,
      futureComplete, zeroQuad, NewSingletonSizeQuad]
  · norm_num [resolveNodeRectPositions, paginate, paginateStep, placedNode, stepCtx,
      stepCursor, recursiveSetPositions, getBoundingRect, Future.await, evalDefinition,
      andThen, letterPage, newDocumentPage, egTop275, simpleNode, Future.bindTo, setXY,
      StaticSize, newCompleteFuture, emptySize, NodeList.headOpt, NodeList.snoc,
      NodeList.length, Page.addNode, Page.getDrawRect, addPageFrom, LayoutNode.data,
      LayoutNode.children, futureComplete, futureIncomplete, zeroQuad,
      NewSingletonSizeQuad, FlowVertical, FlowHorizontal]

/-- C6: one step of the children walk places the child at the cursor and,
when a next sibling exists, advances the cursor along the main axis by the
child's bounding extent plus the next sibling's leading margin, while the
cross-axis cursor shifts by the full difference of the two bounding
cross-extents under End alignment, by half the difference under Center
alignment, and not at all under Start alignment. -/
theorem cross_axis_walk_correct (fuel : ℕ) (pf : LayoutNodeData)
    (allCs : NodeList) (ctx : Ctx) (idx : ℕ) (child next2 child2 : LayoutNode)
    (rest2 restOut : NodeList) (cursor : ResolverCursor) (cbr nbr : Rect)
    (hpos : recursiveSetPositions fuel (setXY child cursor.x cursor.y)
      (.parentCtx pf allCs idx ctx) cursor = some (.ok child2))
    (hcbr : getBoundingRect fuel child2 (.parentCtx pf allCs idx ctx) =
      some (.ok cbr))
    (hnbr : getBoundingRect fuel next2 (.parentCtx pf allCs (idx + 1) ctx) =
      some (.ok nbr))
    (hrest : walkChildren fuel pf allCs ctx (idx + 1) (.cons next2 rest2)
      (advanceCursor pf cursor cbr nbr next2) = some (.ok restOut)) :
    walkChildren (fuel + 1) pf allCs ctx idx (.cons child (.cons next2 rest2))
        cursor = some (.ok (.cons child2 restOut)) ∧
    child2.data.x = cursor.x ∧ child2.data.y = cursor.y ∧
    (pf.childFlowDirection = FlowVertical →
      (advanceCursor pf cursor cbr nbr next2).y =
        cursor.y + cbr.height + next2.data.margin.top ∧
      (advanceCursor pf cursor cbr nbr next2).x =
        cursor.x +
          (if pf.childAlignment.horizontal = alignEnd then cbr.width - nbr.width
           else if pf.childAlignment.horizontal = alignCenter then
             (cbr.width - nbr.width) / 2
           else 0)) ∧
    (pf.childFlowDirection = FlowHorizontal →
      (advanceCursor pf cursor cbr nbr next2).x =
        cursor.x + cbr.width + next2.data.margin.left ∧
      (advanceCursor pf cursor cbr nbr next2).y =
        cursor.y +
          (if pf.childAlignment.vertical = alignEnd then cbr.height - nbr.height
           else if pf.childAlignment.vertical = alignCenter then
             (cbr.height - nbr.height) / 2
           else 0)) := by
  have hdata := recursiveSetPositions_data fuel _ _ _ _ hpos
  refine ⟨?_, ?_, ?_, ?_, ?_⟩
  · simp only [walkChildren, andThen, hpos, hcbr, hnbr, hrest]
  · rw [hdata]; simp [setXY, LayoutNode.data]
  · rw [hdata]; simp [setXY, LayoutNode.data]
  · intro hv
    constructor <;>
      simp [advanceCursor, hv, FlowVertical, FlowHorizontal]
  · intro hh
    constructor <;>
      simp [advanceCursor, hh, FlowVertical, FlowHorizontal]

/-- Witness for C6: in the 100-wide container with vertical flow and
horizontal Center alignment, the width-20 child sits at x = 40 and the
cursor for the width-40 sibling shifts by (20 - 40)/2 = -10 to x = 30. -/
theorem cross_axis_walk_correct_witness :
    walkChildren 10 egCenterContainer.data egWKids .orphanCtx 0
        (.cons egW20 (.cons egW40 .nil)) ⟨40, 0⟩ =
      some (.ok (.cons (setXY egW20 40 0) (.cons (setXY egW40 30 10) .nil))) ∧
    (advanceCursor egCenterContainer.data ⟨40, 0⟩ ⟨20, 10⟩ ⟨40, 10⟩ egW40).x = 30 ∧
    (setXY egW20 40 0).data.x = 40 := by
  have hadv : advanceCursor egCenterContainer.data ⟨40, 0⟩ ⟨20, 10⟩ ⟨40, 10⟩ egW40 =
      (⟨30, 10⟩ : ResolverCursor) := by
    norm_num [advanceCursor, egCenterContainer, egW40, simpleNode, LayoutNode.data,
      FlowVertical, FlowHorizontal, alignStart, alignEnd, alignCenter,
      zeroQuad, NewSingletonSizeQuad]
  have hpos : recursiveSetPositions 9 (setXY egW20 (40 : Size) (0 : Size))
      (.parentCtx egCenterContainer.data egWKids 0 .orphanCtx) ⟨40, 0⟩ =
      some (.ok (setXY egW20 40 0)) := by
    norm_num [recursiveSetPositions, setXY, NodeList.headOpt, egW20, simpleNode,
      LayoutNode.data, LayoutNode.children, zeroQuad, NewSingletonSizeQuad]
  have hcbr : getBoundingRect 9 (setXY egW20 40 0)
      (.parentCtx egCenterContainer.data egWKids 0 .orphanCtx) =
      some (.ok ⟨20, 10⟩) := by
    norm_num [getBoundingRect, Future.await, andThen, setXY, egW20, simpleNode,
      Future.bindTo, StaticSize, newCompleteFuture, emptySize, LayoutNode.data,
      futureComplete, zeroQuad, NewSingletonSizeQuad]
  have hnbr : getBoundingRect 9 egW40
      (.parentCtx egCenterContainer.data egWKids 1 .orphanCtx) =
      some (.ok ⟨40, 10⟩) := by
    norm_num [getBoundingRect, Future.await, andThen, egW40, simpleNode,
      Future.bindTo, StaticSize, newCompleteFuture, emptySize, LayoutNode.data,
      futureComplete, zeroQuad, NewSingletonSizeQuad]
  have hrest : walkChildren 9 egCenterContainer.data egWKids .orphanCtx 1
      (.cons egW40 .nil)
      (advanceCursor egCenterContainer.data ⟨40, 0⟩ ⟨20, 10⟩ ⟨40, 10⟩ egW40) =
      some (.ok (.cons (setXY egW40 30 10) .nil)) := by
    rw [hadv]
    norm_num [walkChildren, recursiveSetPositions, getBoundingRect, Future.await,
      andThen, setXY, NodeList.headOpt, egW40, simpleNode, Future.bindTo,
      StaticSize, newCompleteFuture, emptySize, LayoutNode.data,
      LayoutNode.children, futureComplete, zeroQuad, NewSingletonSizeQuad]
  have h := cross_axis_walk_correct 9 egCenterContainer.data egWKids .orphanCtx 0
    egW20 egW40 (setXY egW20 40 0) .nil (.cons (setXY egW40 30 10) .nil)
    ⟨40, 0⟩ ⟨20, 10⟩ ⟨40, 10⟩ hpos hcbr hnbr hrest
  refine ⟨h.1, ?_, h.2.1⟩
  rw [hadv]

/-- The full claim-C6 instance through the position resolver: the 100-wide
container with horizontal Center alignment positions its width-20 child at
x-offset 40 and its width-40 child at x-offset 30 (and y-offsets 0 and
10). -/
theorem center_alignment_positions :
    recursiveSetPositions 10 egCenterContainer .orphanCtx ⟨0, 0⟩ =
      some (.ok (.mk egCenterContainer.data
        (.cons (setXY egW20 40 0) (.cons (setXY egW40 30 10) .nil)))) := by
  norm_num [recursiveSetPositions, walkChildren, advanceCursor, sumChildBoundingSizes,
    getDrawRect, getBoundingRect, Future.await, evalDefinition, andThen, Ctx.withIdx,
    egCenterContainer, egWKids, egW20, egW40, simpleNode, Future.bindTo, setXY,
    StaticSize, newCompleteFuture, emptySize, NodeList.headOpt,
    LayoutNode.data, LayoutNode.children, futureComplete, futureIncomplete,
    zeroQuad, NewSingletonSizeQuad, FlowVertical, FlowHorizontal,
    alignStart, alignEnd, alignCenter]

/-- C7: awaiting a Pending future with a bound owner returns exactly the
result of invoking its rule definition with the stored parameters, and
does not mutate the future — value, state, definition, params (and the
owner binding) are identical after the call — so a repeated await
re-executes the rule and returns the same answer. -/
theorem await_pending_no_mutation (fuel : ℕ) (f : Future) (node : LayoutNode)
    (ctx : Ctx) (a : ℕ)
    (hpending : f.state = futureIncomplete)
    (hbound : f.node = some a) :
    Future.awaitS (fuel + 1) f node ctx =
      (evalDefinition fuel f.definition f.params node ctx, f) ∧
    ((Future.awaitS (fuel + 1) f node ctx).2.value = f.value ∧
      (Future.awaitS (fuel + 1) f node ctx).2.state = f.state ∧
      (Future.awaitS (fuel + 1) f node ctx).2.definition = f.definition ∧
      (Future.awaitS (fuel + 1) f node ctx).2.params = f.params ∧
      (Future.awaitS (fuel + 1) f node ctx).2.node = f.node) ∧
    Future.awaitS (fuel + 1) (Future.awaitS (fuel + 1) f node ctx).2 node ctx =
      Future.awaitS (fuel + 1) f node ctx := by
  have hstate : ¬ f.state = futureComplete := by
    rw [hpending]; simp [futureIncomplete, futureComplete]
  simp [Future.awaitS, hbound, hstate]

/-- Witness for C7: awaiting the bound pending Percentage(50) future
returns its rule invocation unchanged and leaves the future exactly as it
was. -/
theorem await_pending_no_mutation_witness :
    Future.awaitS 10 egPendingFuture egChildLit .orphanCtx =
      (evalDefinition 9 egPendingFuture.definition egPendingFuture.params
        egChildLit .orphanCtx, egPendingFuture) ∧
    (Future.awaitS 10 egPendingFuture egChildLit .orphanCtx).2 = egPendingFuture := by
  have h := await_pending_no_mutation 9 egPendingFuture egChildLit .orphanCtx 3
    (by norm_num [egPendingFuture, WidthPercentage, newIncompleteFuture, Future.bindTo])
    (by norm_num [egPendingFuture, WidthPercentage, newIncompleteFuture, Future.bindTo])
  exact ⟨h.1, by rw [h.1]⟩

/-- C8: await on a future with no bound owner fails with the
InvariantViolation error (this check runs first), and await on a Resolved
future with a bound owner returns the stored value. -/
theorem await_resolved_and_unbound (fuel : ℕ) (f : Future) (node : LayoutNode)
    (ctx : Ctx) :
    (f.node = none →
      Future.awaitS (fuel + 1) f node ctx =
        (some (.error (.invariantViolation nilNodeFutureMsg)), f)) ∧
    (∀ a, f.node = some a → f.state = futureComplete →
      Future.awaitS (fuel + 1) f node ctx = (some (.ok f.value), f)) := by
  constructor
  · intro h
    simp [Future.awaitS, h]
  · intro a h hc
    simp [Future.awaitS, h, hc]

/-- Witness for C8: the resolved StaticSize(70) future returns 70, and
the never-bound future fails with the invariant violation. -/
theorem await_resolved_and_unbound_witness :
    Future.awaitS 10 egResolvedFuture egChildLit .orphanCtx =
      (some (.ok 70), egResolvedFuture) ∧
    Future.awaitS 10 egUnboundFuture egChildLit .orphanCtx =
      (some (.error (.invariantViolation nilNodeFutureMsg)), egUnboundFuture) := by
  refine ⟨?_, ?_⟩
  · have h1 := (await_resolved_and_unbound 9 egResolvedFuture egChildLit .orphanCtx).2 4
      (by norm_num [egResolvedFuture, StaticSize, newCompleteFuture, Future.bindTo])
      (by norm_num [egResolvedFuture, StaticSize, newCompleteFuture, Future.bindTo])
    rw [show (10 : ℕ) = 9 + 1 from rfl, h1]
    norm_num [egResolvedFuture, StaticSize, newCompleteFuture, Future.bindTo]
  · have h2 := (await_resolved_and_unbound 9 egUnboundFuture egChildLit .orphanCtx).1
      (by norm_num [egUnboundFuture, WidthPercentage, newIncompleteFuture])
    rw [show (10 : ℕ) = 9 + 1 from rfl, h2]

/-- C9 (code-bug exhibit): awaiting the width of an orphan Percentage
node fails with the OrphanNode error, yet `getDrawRect` on the same node
returns the zero rect with a nil error — layout_node.go checks each await
error but then executes `return Rect{}, nil`, silently swallowing the
failure instead of propagating it as the spec (and the sibling functions
`getBoundingRect`/`getRenderRect`) do. -/
theorem get_draw_rect_swallows_error :
    Future.await 9 egOrphanPctNode.data.width egOrphanPctNode .orphanCtx =
      some (.error (.invariantViolation orphanWidthMsg)) ∧
    getDrawRect 10 egOrphanPctNode .orphanCtx = some (.ok ⟨0, 0⟩) := by
  constructor <;>
    norm_num [getDrawRect, Future.await, evalDefinition, widthPercentage,
      widthPercentageResult, egOrphanPctNode, simpleNode, Future.bindTo,
      WidthPercentage, newIncompleteFuture, StaticSize, newCompleteFuture,
      emptySize, LayoutNode.data, futureComplete, futureIncomplete, zeroQuad,
      NewSingletonSizeQuad, andThen]

mutual

/-- Clone preserves every field except the allocation address: the
addr-erased clone equals the addr-erased original. -/
theorem clone_stripAddr : ∀ (n : LayoutNode) (fresh : ℕ),
    ((LayoutNode.clone n fresh).1).stripAddr = n.stripAddr
  | .mk fs cs, fresh => by
    simp [LayoutNode.clone, LayoutNode.stripAddr,
      cloneAll_stripAddr cs (fresh + 1)]

/-- List version of `clone_stripAddr`. -/
theorem cloneAll_stripAddr : ∀ (l : NodeList) (fresh : ℕ),
    ((NodeList.cloneAll l fresh).1).stripAddr = l.stripAddr
  | .nil, _ => by simp [NodeList.cloneAll, NodeList.stripAddr]
  | .cons c cs, fresh => by
    simp [NodeList.cloneAll, NodeList.stripAddr, clone_stripAddr c fresh,
      cloneAll_stripAddr cs (LayoutNode.clone c fresh).2]

end

mutual

/-- The address counter never decreases while cloning. -/
theorem clone_counter_le : ∀ (n : LayoutNode) (fresh : ℕ),
    fresh ≤ (LayoutNode.clone n fresh).2
  | .mk fs cs, fresh => by
    have h := cloneAll_counter_le cs (fresh + 1)
    simp only [LayoutNode.clone]
    omega

/-- List version of `clone_counter_le`. -/
theorem cloneAll_counter_le : ∀ (l : NodeList) (fresh : ℕ),
    fresh ≤ (NodeList.cloneAll l fresh).2
  | .nil, _ => by simp [NodeList.cloneAll]
  | .cons c cs, fresh => by
    have h1 := clone_counter_le c fresh
    have h2 := cloneAll_counter_le cs (LayoutNode.clone c fresh).2
    simp only [NodeList.cloneAll]
    omega

end

mutual

/-- Every address in a clone is at least the fresh-address counter the
clone started from: the clone is allocated entirely at fresh addresses. -/
theorem clone_addrs_ge : ∀ (n : LayoutNode) (fresh a : ℕ),
    a ∈ ((LayoutNode.clone n fresh).1).addrs → fresh ≤ a
  | .mk fs cs, fresh, a, ha => by
    simp only [LayoutNode.clone, LayoutNode.addrs] at ha
    rcases List.mem_cons.mp ha with h | h
    · omega
    · have := cloneAll_addrs_ge cs (fresh + 1) a h
      omega

/-- List version of `clone_addrs_ge`. -/
theorem cloneAll_addrs_ge : ∀ (l : NodeList) (fresh a : ℕ),
    a ∈ ((NodeList.cloneAll l fresh).1).addrs → fresh ≤ a
  | .nil, fresh, a, ha => by simp [NodeList.cloneAll, NodeList.addrs] at ha
  | .cons c cs, fresh, a, ha => by
    simp only [NodeList.cloneAll, NodeList.addrs] at ha
    rcases List.mem_append.mp ha with h | h
    · exact clone_addrs_ge c fresh a h
    · have h2 := cloneAll_addrs_ge cs (LayoutNode.clone c fresh).2 a h
      have h1 := clone_counter_le c fresh
      omega

end

mutual

/-- Erasing addresses does not touch the owner back-references stored in
the futures. -/
theorem stripAddr_futureOwners : ∀ (n : LayoutNode),
    (LayoutNode.stripAddr n).futureOwners = n.futureOwners
  | .mk fs cs => by
    simp [LayoutNode.stripAddr, LayoutNode.futureOwners,
      stripAddrList_futureOwners cs]

/-- List version of `stripAddr_futureOwners`. -/
theorem stripAddrList_futureOwners : ∀ (l : NodeList),
    (NodeList.stripAddr l).futureOwners = l.futureOwners
  | .nil => by simp [NodeList.stripAddr, NodeList.futureOwners]
  | .cons c cs => by
    simp [NodeList.stripAddr, NodeList.futureOwners, stripAddr_futureOwners c,
      stripAddrList_futureOwners cs]

end

mutual

/-- In a self-bound tree every node's future owners are exactly its own
address, so the owner list is the address list (paired twice over). -/
theorem selfBound_futureOwners : ∀ (n : LayoutNode), n.selfBound = true →
    n.futureOwners = n.addrs.map (fun a => (some a, some a))
  | .mk fs cs, h => by
    simp only [LayoutNode.selfBound, Bool.and_eq_true, decide_eq_true_eq] at h
    obtain ⟨⟨hw, hh⟩, hcs⟩ := h
    simp [LayoutNode.futureOwners, LayoutNode.addrs, hw, hh,
      selfBoundList_futureOwners cs hcs]

/-- List version of `selfBound_futureOwners`. -/
theorem selfBoundList_futureOwners : ∀ (l : NodeList), l.selfBound = true →
    l.futureOwners = l.addrs.map (fun a => (some a, some a))
  | .nil, _ => by simp [NodeList.futureOwners, NodeList.addrs]
  | .cons c cs, h => by
    simp only [NodeList.selfBound, Bool.and_eq_true] at h
    simp [NodeList.futureOwners, NodeList.addrs, selfBound_futureOwners c h.1,
      selfBoundList_futureOwners cs h.2]

end

/-- C10: Clone copies every field of every node (the addr-erased trees are
equal, so the children are recursively cloned into structurally equal
fresh lists) while allocating only fresh addresses — the original, a pure
value in this model, is untouched; and on a constructor-built (self-bound)
tree the Width/Height owner back-references of the clone still name the
corresponding ORIGINAL node's address and never the address of any node of
the clone itself. -/
theorem clone_correct (n : LayoutNode) (fresh : ℕ)
    (hfresh : ∀ a ∈ n.addrs, a < fresh) :
    ((LayoutNode.clone n fresh).1).stripAddr = n.stripAddr ∧
    (∀ a ∈ ((LayoutNode.clone n fresh).1).addrs, fresh ≤ a) ∧
    (n.selfBound = true →
      ((LayoutNode.clone n fresh).1).futureOwners =
        n.addrs.map (fun a => (some a, some a)) ∧
      ∀ p ∈ ((LayoutNode.clone n fresh).1).futureOwners,
        ∀ b ∈ ((LayoutNode.clone n fresh).1).addrs,
          p.1 ≠ some b ∧ p.2 ≠ some b) := by
  have howners : ((LayoutNode.clone n fresh).1).futureOwners = n.futureOwners := by
    have h1 := congrArg LayoutNode.futureOwners (clone_stripAddr n fresh)
    rwa [stripAddr_futureOwners, stripAddr_futureOwners] at h1
  refine ⟨clone_stripAddr n fresh, fun a ha => clone_addrs_ge n fresh a ha,
    fun hsb => ⟨by rw [howners, selfBound_futureOwners n hsb], ?_⟩⟩
  intro p hp b hb
  rw [howners, selfBound_futureOwners n hsb] at hp
  rcases List.mem_map.mp hp with ⟨a, ha, rfl⟩
  have hlt := hfresh a ha
  have hge := clone_addrs_ge n fresh b hb
  have hne : a ≠ b := by omega
  exact ⟨by simpa using hne, by simpa using hne⟩

/-- Witness for C10: cloning the self-bound tree with addresses 0, 1, 2
at fresh counter 10 preserves all fields, lands on addresses at least 10,
and keeps every future bound to the original addresses 0, 1, 2. -/
theorem clone_correct_witness :
    ((LayoutNode.clone egCloneRoot 10).1).stripAddr = egCloneRoot.stripAddr ∧
    (∀ a ∈ ((LayoutNode.clone egCloneRoot 10).1).addrs, 10 ≤ a) ∧
    ((LayoutNode.clone egCloneRoot 10).1).futureOwners =
      egCloneRoot.addrs.map (fun a => (some a, some a)) := by
  have h := clone_correct egCloneRoot 10 (by decide)
  exact ⟨h.1, h.2.1, (h.2.2 (by decide)).1⟩
